import Mathlib

/-!
Verification of the node lifecycle runner, validation mixin, configuration
validation and flow registry of the claude-pocketflow-template repository.

The Python state container (`store : Dict[str, Any]`) is modelled as an
association list from string keys to dynamic values; `Store.set` implements
dictionary key assignment (the entry order is not observed by any property
proved here) and `Store.get?` implements `dict.get`.
-/

/-- Dynamic Python values as far as the repository manipulates them:
strings, integers, booleans and `None`. -/
inductive Val where
  | str (s : String)
  | int (n : Int)
  | bool (b : Bool)
  | none
deriving DecidableEq, Repr

/-- The shared mutable state dictionary threaded through the node lifecycle. -/
abbrev Store := List (String × Val)

/-- Dictionary lookup, `store.get(k)` / `store[k]`. -/
def Store.get? : Store → String → Option Val
  | [], _ => Option.none
  | p :: t, k => if p.1 = k then some p.2 else Store.get? t k

/-- Dictionary key-membership test, `k in store`. -/
def Store.hasKey (s : Store) (k : String) : Bool :=
  s.any (fun p => p.1 = k)

/-- Dictionary assignment, `store[k] = v`: replaces the value bound to `k`
in place, appending the binding when `k` is absent (Python dicts preserve
insertion order). -/
def Store.set : Store → String → Val → Store
  | [], k, v => [(k, v)]
  | p :: t, k, v => if p.1 = k then (k, v) :: t else p :: Store.set t k v

/-- A node: a name plus the three lifecycle phases of `BaseNode`
(src/src/nodes/base.py).  A phase that raises an exception is modelled as
returning `Except.error msg` where `msg` is the exception text `str(e)`,
which Python allows to be empty. -/
structure Node where
  name : String
  prep : Store → Except String Store
  exec : Store → Except String Store
  post : Store → Except String Store

/-- The `except Exception` handler of `BaseNode.run` (base.py lines 95-100):
`store["action"] = "error"; store["error"] = str(e); store["error_node"] = self.name`. -/
def errStore (n : Node) (msg : String) (s : Store) : Store :=
  ((s.set "action" (Val.str "error")).set "error" (Val.str msg)).set "error_node" (Val.str n.name)

/-- `BaseNode.run` (base.py lines 71-100): `prep`, then `exec` unless the
store returned by `prep` has `action == "error"`, then `post`; any raise is
caught and converted into the error annotations, returning immediately. -/
def Node.run (n : Node) (store : Store) : Store :=
  match n.prep store with
  | .error e => errStore n e store
  | .ok s1 =>
    if s1.get? "action" ≠ some (Val.str "error") then
      match n.exec s1 with
      | .error e => errStore n e s1
      | .ok s2 =>
        match n.post s2 with
        | .error e => errStore n e s2
        | .ok s3 => s3
    else
      match n.post s1 with
      | .error e => errStore n e s1
      | .ok s3 => s3

/-- The three lifecycle phases, for instrumentation. -/
inductive Phase where
  | prep
  | exec
  | post
deriving DecidableEq, Repr

/-- Instrumented `BaseNode.run`: the same control flow as `Node.run`, also
returning the list of phases invoked (each paired with the store it was
invoked on, in invocation order) and, when a phase raised, that phase and
the exception text. -/
def Node.runT (n : Node) (store : Store) :
    Store × List (Phase × Store) × Option (Phase × String) :=
  match n.prep store with
  | .error e => (errStore n e store, [(Phase.prep, store)], some (Phase.prep, e))
  | .ok s1 =>
    if s1.get? "action" ≠ some (Val.str "error") then
      match n.exec s1 with
      | .error e =>
        (errStore n e s1, [(Phase.prep, store), (Phase.exec, s1)], some (Phase.exec, e))
      | .ok s2 =>
        match n.post s2 with
        | .error e =>
          (errStore n e s2, [(Phase.prep, store), (Phase.exec, s1), (Phase.post, s2)],
            some (Phase.post, e))
        | .ok s3 =>
          (s3, [(Phase.prep, store), (Phase.exec, s1), (Phase.post, s2)], Option.none)
    else
      match n.post s1 with
      | .error e =>
        (errStore n e s1, [(Phase.prep, store), (Phase.post, s1)], some (Phase.post, e))
      | .ok s3 => (s3, [(Phase.prep, store), (Phase.post, s1)], Option.none)

theorem run_eq_runT (n : Node) (s : Store) : n.run s = (n.runT s).1 := by
  unfold Node.run Node.runT
  cases n.prep s with
  | error e => rfl
  | ok s1 =>
    dsimp only
    by_cases h : s1.get? "action" = some (Val.str "error")
    · rw [if_neg (not_not_intro h), if_neg (not_not_intro h)]
      cases n.post s1 <;> rfl
    · rw [if_pos h, if_pos h]
      cases n.exec s1 with
      | error e => rfl
      | ok s2 =>
        dsimp only
        cases n.post s2 <;> rfl

theorem get_set_self (s : Store) (k : String) (v : Val) :
    (s.set k v).get? k = some v := by
  induction s with
  | nil => simp [Store.set, Store.get?]
  | cons a t ih =>
    by_cases ha : a.1 = k
    · simp [Store.set, Store.get?, ha]
    · simp [Store.set, Store.get?, ha, ih]

theorem get_set_ne (s : Store) (k k2 : String) (v : Val) (h : k2 ≠ k) :
    (s.set k v).get? k2 = s.get? k2 := by
  have hk : ¬ (k = k2) := fun e => h e.symm
  induction s with
  | nil => simp [Store.set, Store.get?, hk]
  | cons a t ih =>
    by_cases ha : a.1 = k
    · have ha2 : ¬ (a.1 = k2) := by rw [ha]; exact hk
      simp [Store.set, Store.get?, ha, ha2, hk]
    · by_cases hb : a.1 = k2
      · simp [Store.set, Store.get?, ha, hb, h]
      · simp [Store.set, Store.get?, ha, hb, ih]

theorem errStore_action (n : Node) (msg : String) (s : Store) :
    (errStore n msg s).get? "action" = some (Val.str "error") := by
  unfold errStore
  rw [get_set_ne _ _ _ _ (by decide), get_set_ne _ _ _ _ (by decide), get_set_self]

theorem errStore_error (n : Node) (msg : String) (s : Store) :
    (errStore n msg s).get? "error" = some (Val.str msg) := by
  unfold errStore
  rw [get_set_ne _ _ _ _ (by decide), get_set_self]

theorem errStore_error_node (n : Node) (msg : String) (s : Store) :
    (errStore n msg s).get? "error_node" = some (Val.str n.name) := by
  unfold errStore
  rw [get_set_self]

theorem errStore_spec (n : Node) (msg : String) (s : Store) :
    (errStore n msg s).get? "action" = some (Val.str "error") ∧
    (errStore n msg s).get? "error" = some (Val.str msg) ∧
    (errStore n msg s).get? "error_node" = some (Val.str n.name) :=
  ⟨errStore_action n msg s, errStore_error n msg s, errStore_error_node n msg s⟩

theorem runT_prep_err (n : Node) (s : Store) (e : String)
    (hp : n.prep s = Except.error e) :
    n.runT s = (errStore n e s, [(Phase.prep, s)], some (Phase.prep, e)) := by
  unfold Node.runT
  rw [hp]

theorem runT_exec_err (n : Node) (s s1 : Store) (e : String)
    (hp : n.prep s = Except.ok s1)
    (hc : s1.get? "action" ≠ some (Val.str "error"))
    (he : n.exec s1 = Except.error e) :
    n.runT s
      = (errStore n e s1, [(Phase.prep, s), (Phase.exec, s1)], some (Phase.exec, e)) := by
  unfold Node.runT
  rw [hp]
  dsimp only
  rw [if_pos hc, he]

theorem runT_post_err (n : Node) (s s1 s2 : Store) (e : String)
    (hp : n.prep s = Except.ok s1)
    (hc : s1.get? "action" ≠ some (Val.str "error"))
    (he : n.exec s1 = Except.ok s2)
    (hpo : n.post s2 = Except.error e) :
    n.runT s
      = (errStore n e s2, [(Phase.prep, s), (Phase.exec, s1), (Phase.post, s2)],
          some (Phase.post, e)) := by
  unfold Node.runT
  rw [hp]
  dsimp only
  rw [if_pos hc, he]
  dsimp only
  rw [hpo]

theorem runT_all_ok (n : Node) (s s1 s2 s3 : Store)
    (hp : n.prep s = Except.ok s1)
    (hc : s1.get? "action" ≠ some (Val.str "error"))
    (he : n.exec s1 = Except.ok s2)
    (hpo : n.post s2 = Except.ok s3) :
    n.runT s
      = (s3, [(Phase.prep, s), (Phase.exec, s1), (Phase.post, s2)], Option.none) := by
  unfold Node.runT
  rw [hp]
  dsimp only
  rw [if_pos hc, he]
  dsimp only
  rw [hpo]

theorem runT_skip_post_err (n : Node) (s s1 : Store) (e : String)
    (hp : n.prep s = Except.ok s1)
    (hc : s1.get? "action" = some (Val.str "error"))
    (hpo : n.post s1 = Except.error e) :
    n.runT s
      = (errStore n e s1, [(Phase.prep, s), (Phase.post, s1)], some (Phase.post, e)) := by
  unfold Node.runT
  rw [hp]
  dsimp only
  rw [if_neg (not_not_intro hc), hpo]

theorem runT_skip_ok (n : Node) (s s1 s3 : Store)
    (hp : n.prep s = Except.ok s1)
    (hc : s1.get? "action" = some (Val.str "error"))
    (hpo : n.post s1 = Except.ok s3) :
    n.runT s = (s3, [(Phase.prep, s), (Phase.post, s1)], Option.none) := by
  unfold Node.runT
  rw [hp]
  dsimp only
  rw [if_neg (not_not_intro hc), hpo]

/-- C1 (amended): whenever a lifecycle phase raises, `run` returns (rather
than raising) the store annotated with `action = "error"`, `error` equal to
the exception text (which is empty exactly when the exception carries no
text), and `error_node` equal to the node name; no phase is invoked after
the raising one (the raising phase is the last invoked). -/
theorem claim_C1 (n : Node) (s : Store) (p : Phase) (msg : String)
    (h : (n.runT s).2.2 = some (p, msg)) :
    (n.run s).get? "action" = some (Val.str "error") ∧
    (n.run s).get? "error" = some (Val.str msg) ∧
    (n.run s).get? "error_node" = some (Val.str n.name) ∧
    ((n.runT s).2.1.map Prod.fst).getLast? = some p := by
  rw [run_eq_runT]
  cases hp : n.prep s with
  | error e =>
    rw [runT_prep_err n s e hp] at h ⊢
    dsimp only at h ⊢
    injection h with h2
    injection h2 with ha hb
    subst ha
    subst hb
    exact ⟨errStore_action n e s, errStore_error n e s, errStore_error_node n e s, by simp⟩
  | ok s1 =>
    by_cases hc : s1.get? "action" = some (Val.str "error")
    · cases hpo : n.post s1 with
      | error e =>
        rw [runT_skip_post_err n s s1 e hp hc hpo] at h ⊢
        dsimp only at h ⊢
        injection h with h2
        injection h2 with ha hb
        subst ha
        subst hb
        exact ⟨errStore_action n e s1, errStore_error n e s1, errStore_error_node n e s1,
          by simp⟩
      | ok s3 =>
        rw [runT_skip_ok n s s1 s3 hp hc hpo] at h
        exact absurd h (by simp)
    · cases he : n.exec s1 with
      | error e =>
        rw [runT_exec_err n s s1 e hp hc he] at h ⊢
        dsimp only at h ⊢
        injection h with h2
        injection h2 with ha hb
        subst ha
        subst hb
        exact ⟨errStore_action n e s1, errStore_error n e s1, errStore_error_node n e s1,
          by simp⟩
      | ok s2 =>
        cases hpo : n.post s2 with
        | error e =>
          rw [runT_post_err n s s1 s2 e hp hc he hpo] at h ⊢
          dsimp only at h ⊢
          injection h with h2
          injection h2 with ha hb
          subst ha
          subst hb
          exact ⟨errStore_action n e s2, errStore_error n e s2, errStore_error_node n e s2,
            by simp⟩
        | ok s3 =>
          rw [runT_all_ok n s s1 s2 s3 hp hc he hpo] at h
          exact absurd h (by simp)

/-- Node whose `exec` raises an exception with empty text,
`raise Exception("")`. -/
def emptyMsgNode : Node where
  name := "Checker"
  prep := fun s => Except.ok s
  exec := fun _ => Except.error ""
  post := fun s => Except.ok s

/-- C1 counterexample: a phase (here `exec`) raises an exception whose text
`str(e)` is empty, so `run` stores the empty string under `error` — the
claimed non-empty error message does not hold for every exception. -/
theorem claim_C1_cex :
    (emptyMsgNode.runT []).2.2 = some (Phase.exec, "") ∧
    (emptyMsgNode.run []).get? "error" = some (Val.str "") := by
  constructor
  · rfl
  · rfl

/-- C1 witness: a node raising an exception with text "boom" is returned
annotated with the error action, message and node name. -/
theorem claim_C1_witness :
    let n : Node :=
      { name := "Checker"
        prep := fun s => Except.ok s
        exec := fun _ => Except.error "boom"
        post := fun s => Except.ok s }
    (n.run []).get? "action" = some (Val.str "error") ∧
    (n.run []).get? "error" = some (Val.str "boom") ∧
    (n.run []).get? "error_node" = some (Val.str "Checker") ∧
    ((n.runT []).2.1.map Prod.fst).getLast? = some Phase.exec := by
  intro n
  exact claim_C1 n [] Phase.exec "boom" rfl

/-- C2: if `prep` returns a store whose `action` equals `"error"`, `run`
does not invoke `exec` but still invokes `post`, on exactly that store. -/
theorem claim_C2 (n : Node) (s s1 : Store)
    (hp : n.prep s = Except.ok s1)
    (hc : s1.get? "action" = some (Val.str "error")) :
    (n.runT s).2.1 = [(Phase.prep, s), (Phase.post, s1)] := by
  cases hpo : n.post s1 with
  | error e => rw [runT_skip_post_err n s s1 e hp hc hpo]
  | ok s3 => rw [runT_skip_ok n s s1 s3 hp hc hpo]

/-- Node whose `prep` sets the error action. -/
def prepFlagsErrorNode : Node where
  name := "PrepFlags"
  prep := fun s => Except.ok (s.set "action" (Val.str "error"))
  exec := fun s => Except.ok s
  post := fun s => Except.ok s

/-- C2 witness: on the empty store, the node whose `prep` sets the error
action invokes only `prep` and `post`. -/
theorem claim_C2_witness :
    (prepFlagsErrorNode.runT []).2.1
      = [(Phase.prep, []), (Phase.post, [("action", Val.str "error")])] :=
  claim_C2 prepFlagsErrorNode [] [("action", Val.str "error")] rfl rfl

/-- C3 (amended): when `prep` returns a store without the error action and
no phase raises, the three phases are invoked exactly once each, in order
`prep`, `exec`, `post`, and `run` returns the store produced by `post`.
The claim as frozen conditions on the input store instead of the store
`prep` returns; the counterexample shows that condition is not the one the
code tests. -/
theorem claim_C3 (n : Node) (s s1 s2 s3 : Store)
    (hp : n.prep s = Except.ok s1)
    (hc : s1.get? "action" ≠ some (Val.str "error"))
    (he : n.exec s1 = Except.ok s2)
    (hpo : n.post s2 = Except.ok s3) :
    (n.runT s).2.1 = [(Phase.prep, s), (Phase.exec, s1), (Phase.post, s2)] ∧
    n.run s = s3 := by
  rw [run_eq_runT, runT_all_ok n s s1 s2 s3 hp hc he hpo]
  exact ⟨rfl, rfl⟩

/-- Node whose `prep` stamps the error action into a previously clean store. -/
def prepStampsErrorNode : Node where
  name := "PrepStamps"
  prep := fun s => Except.ok (s.set "action" (Val.str "error"))
  exec := fun s => Except.ok s
  post := fun s => Except.ok s

/-- C3 counterexample: the empty input store has no `"error"` action, yet
`exec` is not invoked, because the code tests the store returned by `prep`
(which here sets the error action), not the input store. -/
theorem claim_C3_cex :
    (Store.get? [] "action" ≠ some (Val.str "error")) ∧
    (prepStampsErrorNode.runT []).2.1.map Prod.fst = [Phase.prep, Phase.post] := by
  constructor
  · decide
  · rfl

/-- Node with passthrough `prep` and `post` and an `exec` writing a result. -/
def resultNode : Node where
  name := "Result"
  prep := fun s => Except.ok s
  exec := fun s => Except.ok (s.set "result" (Val.str "ok"))
  post := fun s => Except.ok s

/-- C3 witness: a node with no raising phase and a clean `prep` output runs
all three phases in order once each. -/
theorem claim_C3_witness :
    (resultNode.runT []).2.1
      = [(Phase.prep, []), (Phase.exec, []), (Phase.post, [("result", Val.str "ok")])] ∧
    resultNode.run [] = [("result", Val.str "ok")] :=
  claim_C3 resultNode [] [] [("result", Val.str "ok")] [("result", Val.str "ok")]
    rfl (by decide) rfl rfl

/-- C5: re-running `run` on an already-errored store (with a `prep` that
leaves it unchanged) is permitted — `run` returns without raising — and
again skips the `exec` phase. -/
theorem claim_C5 (n : Node) (s : Store)
    (hc : s.get? "action" = some (Val.str "error"))
    (hp : n.prep s = Except.ok s) :
    Phase.exec ∉ (n.runT s).2.1.map Prod.fst ∧
    (n.runT s).2.1 = [(Phase.prep, s), (Phase.post, s)] := by
  have ht : (n.runT s).2.1 = [(Phase.prep, s), (Phase.post, s)] := by
    cases hpo : n.post s with
    | error e => rw [runT_skip_post_err n s s e hp hc hpo]
    | ok s3 => rw [runT_skip_ok n s s s3 hp hc hpo]
  refine ⟨?_, ht⟩
  rw [ht]
  simp

/-- Node with a passthrough `prep`, for re-running on an errored store. -/
def rerunNode : Node where
  name := "Rerun"
  prep := fun s => Except.ok s
  exec := fun s => Except.ok s
  post := fun s => Except.ok s

/-- C5 witness: rerunning on a store already carrying the error action
skips `exec`. -/
theorem claim_C5_witness :
    Phase.exec ∉ (rerunNode.runT [("action", Val.str "error")]).2.1.map Prod.fst ∧
    (rerunNode.runT [("action", Val.str "error")]).2.1
      = [(Phase.prep, [("action", Val.str "error")]),
          (Phase.post, [("action", Val.str "error")])] :=
  claim_C5 rerunNode [("action", Val.str "error")] rfl rfl

/-- `ValidationMixin.validate_required_fields` (base.py lines 106-125):
collects the listed fields absent from the store and, when any is missing,
returns `(False, message)` naming them, else `(True, None)`.  The Python
method only reads `store`; the embedding returns no store at all, so the
check cannot mutate the state container. -/
def validate_required_fields (store : Store) (required_fields : List String) :
    Bool × Option String :=
  let missing_fields := required_fields.filter (fun f => ! store.hasKey f)
  if missing_fields ≠ [] then
    (false, some ("Missing required fields: " ++ String.intercalate ", " missing_fields))
  else
    (true, Option.none)

/-- C6: the required-fields check fails exactly when a listed field is
absent from the store; on failure the message names the missing fields, on
success it returns `(True, None)`; the store is not mutated (the embedded
check returns only the verdict pair). -/
theorem claim_C6 (store : Store) (required_fields : List String) :
    ((validate_required_fields store required_fields).1 = false
      ↔ ∃ f ∈ required_fields, store.hasKey f = false)
    ∧ ((∃ f ∈ required_fields, store.hasKey f = false) →
        validate_required_fields store required_fields
          = (false, some ("Missing required fields: "
              ++ String.intercalate ", "
                  (required_fields.filter (fun f => ! store.hasKey f)))))
    ∧ ((∀ f ∈ required_fields, store.hasKey f = true) →
        validate_required_fields store required_fields = (true, Option.none)) := by
  unfold validate_required_fields
  by_cases hm : required_fields.filter (fun f => ! store.hasKey f) = []
  · have hall : ∀ f ∈ required_fields, store.hasKey f = true := by
      intro f hf
      by_contra hciter
      have hmem : f ∈ required_fields.filter (fun f => ! store.hasKey f) :=
        List.mem_filter.mpr ⟨hf, by simp [Bool.not_eq_true] at hciter ⊢; exact hciter⟩
      rw [hm] at hmem
      exact absurd hmem (List.not_mem_nil f)
    have hnone : ¬ ∃ f ∈ required_fields, store.hasKey f = false := by
      rintro ⟨f, hf, hkey⟩
      rw [hall f hf] at hkey
      exact Bool.noConfusion hkey
    rw [if_neg (not_not_intro hm)]
    exact ⟨iff_of_false (by simp) hnone, fun he => absurd he hnone, fun _ => rfl⟩
  · have hsome : ∃ f ∈ required_fields, store.hasKey f = false := by
      obtain ⟨f, hf⟩ := List.exists_mem_of_ne_nil _ hm
      obtain ⟨hfr, hfk⟩ := List.mem_filter.mp hf
      exact ⟨f, hfr, by simp [Bool.not_eq_true] at hfk; exact hfk⟩
    rw [if_pos hm]
    refine ⟨iff_of_true rfl hsome, fun _ => rfl, fun hall => ?_⟩
    obtain ⟨f, hf, hkey⟩ := hsome
    rw [hall f hf] at hkey
    exact Bool.noConfusion hkey

/-- C6 witness: with `"a"` present and `"b"` absent, the check fails naming
`"b"`; with only `"a"` required, it passes. -/
theorem claim_C6_witness :
    validate_required_fields [("a", Val.int 1)] ["a", "b"]
      = (false, some "Missing required fields: b") := by
  have h := (claim_C6 [("a", Val.int 1)] ["a", "b"]).2.1 ⟨"b", by decide, by decide⟩
  rw [h]
  rfl

/-- Python type tags as used with `isinstance` by `validate_field_types`. -/
inductive PyType where
  | str
  | int
  | bool
  | noneType
deriving DecidableEq, Repr

/-- Python `isinstance` on the modelled values; `bool` is a subclass of
`int` in Python, so booleans are instances of `int` as well. -/
def isinstance : Val → PyType → Bool
  | Val.str _, PyType.str => true
  | Val.int _, PyType.int => true
  | Val.bool _, PyType.bool => true
  | Val.bool _, PyType.int => true
  | Val.none, PyType.noneType => true
  | _, _ => false

/-- Python `type_obj.__name__` for the modelled type tags. -/
def PyType.typeName : PyType → String
  | PyType.str => "str"
  | PyType.int => "int"
  | PyType.bool => "bool"
  | PyType.noneType => "NoneType"

/-- Python `type(value).__name__` for the modelled values. -/
def Val.typeName : Val → String
  | Val.str _ => "str"
  | Val.int _ => "int"
  | Val.bool _ => "bool"
  | Val.none => "NoneType"

/-- `ValidationMixin.validate_field_types` (base.py lines 127-147): walks
the field-to-type mapping in insertion order; the first field that is
present in the store with a value not an instance of the expected type
yields `(False, message)`; otherwise `(True, None)`.  The Python message
wraps the field name in single quotes, omitted here. -/
def validate_field_types (store : Store) (field_types : List (String × PyType)) :
    Bool × Option String :=
  match field_types with
  | [] => (true, Option.none)
  | (field, expected) :: rest =>
    match Store.get? store field with
    | some v =>
      if ! isinstance v expected then
        (false, some ("Field " ++ field ++ " must be " ++ expected.typeName
          ++ ", got " ++ v.typeName))
      else validate_field_types store rest
    | Option.none => validate_field_types store rest

/-- C8: the type check returns `(True, None)` whenever every field that is
both listed in the mapping and present in the store holds a value of the
expected type; a listed field absent from the store imposes no condition at
all, so it can never cause a failure. -/
theorem claim_C8 (store : Store) (field_types : List (String × PyType))
    (h : ∀ p ∈ field_types, ∀ v, Store.get? store p.1 = some v → isinstance v p.2 = true) :
    validate_field_types store field_types = (true, Option.none) := by
  induction field_types with
  | nil => rfl
  | cons q rest ih =>
    have hrest : ∀ p ∈ rest, ∀ v, Store.get? store p.1 = some v → isinstance v p.2 = true :=
      fun p hp => h p (List.mem_cons_of_mem q hp)
    obtain ⟨field, expected⟩ := q
    cases hv : Store.get? store field with
    | none =>
      simp only [validate_field_types, hv]
      exact ih hrest
    | some v =>
      have hi : isinstance v expected = true :=
        h (field, expected) (List.mem_cons_self _ _) v hv
      simp only [validate_field_types, hv, hi, Bool.not_true, Bool.false_eq_true,
        if_false]
      exact ih hrest

/-- C8 witness: `"x"` is present with the expected type and `"y"` is listed
but absent; the check passes. -/
theorem claim_C8_witness :
    validate_field_types [("x", Val.int 3)] [("x", PyType.int), ("y", PyType.str)]
      = (true, Option.none) := by
  apply claim_C8
  intro p hp v hv
  rcases List.mem_cons.mp hp with h1 | h1
  · subst h1
    simp only [Store.get?] at hv
    simp at hv
    subst hv
    rfl
  · have hy : p = ("y", PyType.str) := by simpa using h1
    subst hy
    simp [Store.get?] at hv

/-- Python `a or b` on an optional string: falls through on `None` and on
the empty string (both falsy). -/
def pyOrOpt (a : Option String) (b : Option String) : Option String :=
  match a with
  | some s => if s = "" then b else some s
  | Option.none => b

/-- Python `Path(d) if d else Path(dflt)`: `None` and the empty string both
select the default. -/
def pyOrStr (a : Option String) (dflt : String) : String :=
  match a with
  | some s => if s = "" then dflt else s
  | Option.none => dflt

/-- Arguments of `Config.__init__` (config.py lines 11-22); `kwargs` are
omitted (no claim observes them). -/
structure ConfigArgs where
  anthropic_api_key : Option String
  debug : Bool
  log_level : String
  data_dir : Option String
  logs_dir : Option String
  flow_timeout : Int
  max_retries : Int
deriving DecidableEq, Repr

/-- The constructed configuration object. -/
structure Config where
  anthropic_api_key : Option String
  debug : Bool
  log_level : String
  data_dir : String
  logs_dir : String
  flow_timeout : Int
  max_retries : Int
deriving DecidableEq, Repr

/-- The filesystem, as the set of directories that exist. -/
abbrev FileSys := List String

/-- Directory-existence test on the modelled filesystem. -/
def FileSys.hasDir (fs : FileSys) (d : String) : Bool :=
  fs.any (fun x => x = d)

/-- `Path.mkdir(parents=True, exist_ok=True)` (config.py lines 46-47). -/
def mkdirp (fs : FileSys) (d : String) : FileSys :=
  if fs.hasDir d then fs else d :: fs

/-- The recognized log levels (config.py line 58). -/
def validLogLevels : List String := ["DEBUG", "INFO", "WARNING", "ERROR", "CRITICAL"]

/-- `Config._validate` (config.py lines 56-68): checks the log level, then
the timeout, then the retry count, raising `ValueError` at the first
violation. -/
def Config.validate (c : Config) : Except String Unit :=
  if ¬ validLogLevels.contains c.log_level then
    Except.error ("Invalid log_level: " ++ c.log_level)
  else if c.flow_timeout ≤ 0 then
    Except.error ("flow_timeout must be positive, got: " ++ toString c.flow_timeout)
  else if c.max_retries < 0 then
    Except.error ("max_retries must be non-negative, got: " ++ toString c.max_retries)
  else
    Except.ok ()

/-- `Config.__init__` (config.py lines 11-54): resolves the API key against
the environment, fixes both directories (defaults `"data"` and `"logs"`),
creates them on the filesystem, and only then validates; a validation
fault is returned with the filesystem as already mutated. -/
def Config.init (args : ConfigArgs) (envApiKey : Option String) (fs : FileSys) :
    FileSys × Except String Config :=
  let c : Config :=
    { anthropic_api_key := pyOrOpt args.anthropic_api_key envApiKey
      debug := args.debug
      log_level := args.log_level
      data_dir := pyOrStr args.data_dir "data"
      logs_dir := pyOrStr args.logs_dir "logs"
      flow_timeout := args.flow_timeout
      max_retries := args.max_retries }
  let fs1 := mkdirp fs c.data_dir
  let fs2 := mkdirp fs1 c.logs_dir
  match c.validate with
  | Except.error e => (fs2, Except.error e)
  | Except.ok _ => (fs2, Except.ok c)

theorem hasDir_mkdirp_self (fs : FileSys) (d : String) :
    (mkdirp fs d).hasDir d = true := by
  unfold mkdirp
  by_cases h : fs.hasDir d = true
  · rw [if_pos h]
    exact h
  · rw [if_neg h]
    simp [FileSys.hasDir]

theorem hasDir_mkdirp_of (fs : FileSys) (d d2 : String) (h : fs.hasDir d = true) :
    (mkdirp fs d2).hasDir d = true := by
  unfold mkdirp
  by_cases h2 : fs.hasDir d2 = true
  · rw [if_pos h2]
    exact h
  · rw [if_neg h2]
    simp only [FileSys.hasDir, List.any_cons] at h ⊢
    rw [h]
    simp

theorem init_fs (args : ConfigArgs) (envApiKey : Option String) (fs : FileSys) :
    (Config.init args envApiKey fs).1
      = mkdirp (mkdirp fs (pyOrStr args.data_dir "data")) (pyOrStr args.logs_dir "logs") := by
  unfold Config.init
  dsimp only
  split <;> rfl

/-- C4: construction fails with a validation fault exactly when
`flow_timeout ≤ 0` or `max_retries < 0` or the log level is unrecognized;
on every valid input it succeeds, and both configured directories exist on
the resulting filesystem. -/
theorem claim_C4 (args : ConfigArgs) (envApiKey : Option String) (fs : FileSys) :
    ((∃ e, (Config.init args envApiKey fs).2 = Except.error e)
      ↔ (args.flow_timeout ≤ 0 ∨ args.max_retries < 0
          ∨ validLogLevels.contains args.log_level = false))
    ∧ ((¬ (args.flow_timeout ≤ 0 ∨ args.max_retries < 0
          ∨ validLogLevels.contains args.log_level = false)) →
        (∃ c, (Config.init args envApiKey fs).2 = Except.ok c)
        ∧ (Config.init args envApiKey fs).1.hasDir (pyOrStr args.data_dir "data") = true
        ∧ (Config.init args envApiKey fs).1.hasDir (pyOrStr args.logs_dir "logs") = true) := by
  have hdirs :
      (Config.init args envApiKey fs).1.hasDir (pyOrStr args.data_dir "data") = true
      ∧ (Config.init args envApiKey fs).1.hasDir (pyOrStr args.logs_dir "logs") = true := by
    rw [init_fs]
    exact ⟨hasDir_mkdirp_of _ _ _ (hasDir_mkdirp_self _ _), hasDir_mkdirp_self _ _⟩
  have hsnd :
      (∃ e, (Config.init args envApiKey fs).2 = Except.error e)
        ↔ (args.flow_timeout ≤ 0 ∨ args.max_retries < 0
            ∨ validLogLevels.contains args.log_level = false) := by
    unfold Config.init Config.validate
    dsimp only
    by_cases h1 : validLogLevels.contains args.log_level = true
    · rw [if_neg (not_not_intro h1)]
      by_cases h2 : args.flow_timeout ≤ 0
      · rw [if_pos h2]
        exact iff_of_true ⟨_, rfl⟩ (Or.inl h2)
      · rw [if_neg h2]
        by_cases h3 : args.max_retries < 0
        · rw [if_pos h3]
          exact iff_of_true ⟨_, rfl⟩ (Or.inr (Or.inl h3))
        · rw [if_neg h3]
          refine iff_of_false ?_ ?_
          · rintro ⟨e, he⟩
            exact Except.noConfusion he
          · rw [not_or, not_or]
            exact ⟨h2, h3, by rw [h1]; decide⟩
    · rw [if_pos h1]
      exact iff_of_true ⟨_, rfl⟩
        (Or.inr (Or.inr (by revert h1; cases validLogLevels.contains args.log_level <;> simp)))
  refine ⟨hsnd, fun hv => ⟨?_, hdirs⟩⟩
  rw [not_or, not_or] at hv
  obtain ⟨h2, h3, h1f⟩ := hv
  have h1 : validLogLevels.contains args.log_level = true := by
    revert h1f
    cases validLogLevels.contains args.log_level <;> simp
  unfold Config.init Config.validate
  dsimp only
  rw [if_neg (not_not_intro h1), if_neg h2, if_neg h3]
  exact ⟨_, rfl⟩

/-- C4 witness: the default-like arguments are valid; construction succeeds
and both directories exist afterward. -/
theorem claim_C4_witness :
    (∃ c,
      (Config.init ⟨some "key", false, "INFO", Option.none, Option.none, 60, 3⟩
        Option.none []).2 = Except.ok c)
    ∧ (Config.init ⟨some "key", false, "INFO", Option.none, Option.none, 60, 3⟩
        Option.none []).1.hasDir "data" = true
    ∧ (Config.init ⟨some "key", false, "INFO", Option.none, Option.none, 60, 3⟩
        Option.none []).1.hasDir "logs" = true := by
  have h := (claim_C4 ⟨some "key", false, "INFO", Option.none, Option.none, 60, 3⟩
    Option.none []).2 (by decide)
  exact h

/-- C9: construction is not atomic — the two directories are created before
validation runs, so even when construction fails with a validation fault
both directories exist on the resulting filesystem. -/
theorem claim_C9 (args : ConfigArgs) (envApiKey : Option String) (fs : FileSys)
    (e : String) (h : (Config.init args envApiKey fs).2 = Except.error e) :
    (Config.init args envApiKey fs).1.hasDir (pyOrStr args.data_dir "data") = true
    ∧ (Config.init args envApiKey fs).1.hasDir (pyOrStr args.logs_dir "logs") = true := by
  rw [init_fs]
  exact ⟨hasDir_mkdirp_of _ _ _ (hasDir_mkdirp_self _ _), hasDir_mkdirp_self _ _⟩

/-- C9 witness: with `flow_timeout = 0` construction fails, yet the
directories were created. -/
theorem claim_C9_witness :
    (Config.init ⟨some "key", false, "INFO", Option.none, Option.none, 0, 3⟩
      Option.none []).1.hasDir "data" = true
    ∧ (Config.init ⟨some "key", false, "INFO", Option.none, Option.none, 0, 3⟩
      Option.none []).1.hasDir "logs" = true :=
  claim_C9 ⟨some "key", false, "INFO", Option.none, Option.none, 0, 3⟩ Option.none []
    "flow_timeout must be positive, got: 0" (by rfl)

/-- `BaseNode.__init__` (base.py lines 18-21):
`self.name = name or self.__class__.__name__`; Python `or` falls back to
the class name when `name` is `None` or the empty string. -/
def nodeName (name : Option String) (className : String) : String :=
  match name with
  | some s => if s = "" then className else s
  | Option.none => className

/-- C10: an explicit empty-string name behaves exactly like passing no
name — the node is named after its concrete class — and, the class name
being a (nonempty) Python identifier, a node name is never empty. -/
theorem claim_C10 (className : String) (h : className ≠ "") :
    nodeName (some "") className = nodeName Option.none className
    ∧ nodeName Option.none className = className
    ∧ (∀ name, nodeName name className ≠ "") := by
  refine ⟨rfl, rfl, ?_⟩
  intro name
  cases name with
  | none => exact h
  | some s =>
    show (if s = "" then className else s) ≠ ""
    by_cases hs : s = ""
    · rw [if_pos hs]
      exact h
    · rw [if_neg hs]
      exact hs

/-- C10 witness: at the concrete class name `"TestNode"`. -/
theorem claim_C10_witness :
    nodeName (some "") "TestNode" = nodeName Option.none "TestNode"
    ∧ nodeName Option.none "TestNode" = "TestNode"
    ∧ (∀ name, nodeName name "TestNode" ≠ "") :=
  claim_C10 "TestNode" (by decide)

/-- Modelled from the spec: the `FlowDaemon` flow registry.  The module
`claude_pocketflow_template/daemon.py` is absent from the repository
snapshot (only its tests reference it); per the spec the daemon holds a
name-to-flow dictionary `flows`, modelled like `Store` as an
insertion-ordered association list whose operations keep keys unique. -/
abbrev Registry (α : Type) := List (String × α)

/-- Name-membership test on the registry, `name in self.flows`. -/
def Registry.hasName {α : Type} : Registry α → String → Bool
  | [], _ => false
  | p :: t, name => if p.1 = name then true else Registry.hasName t name

/-- Modelled from the spec: `add_flow(name, flow)` inserts or replaces the
entry for `name` unconditionally (`self.flows[name] = flow`). -/
def Registry.add_flow {α : Type} : Registry α → String → α → Registry α
  | [], name, flow => [(name, flow)]
  | p :: t, name, flow =>
    if p.1 = name then (name, flow) :: t else p :: Registry.add_flow t name flow

/-- Modelled from the spec: `remove_flow(name)` deletes the entry for
`name` if present, returning the removed flow handle, and returns `None`
leaving the registry unchanged when `name` is unknown. -/
def Registry.remove_flow {α : Type} : Registry α → String → Option α × Registry α
  | [], _ => (Option.none, [])
  | p :: t, name =>
    if p.1 = name then (some p.2, t)
    else
      let rest := Registry.remove_flow t name
      (rest.1, p :: rest.2)

theorem remove_add_add {α : Type} (r : Registry α) (name : String) (f1 f2 : α) :
    (((r.add_flow name f1).add_flow name f2).remove_flow name).1 = some f2 := by
  induction r with
  | nil => simp [Registry.add_flow, Registry.remove_flow]
  | cons p t ih =>
    by_cases hp : p.1 = name
    · simp [Registry.add_flow, Registry.remove_flow, hp]
    · simp [Registry.add_flow, Registry.remove_flow, hp, ih]

theorem hasName_false_of_not_mem {α : Type} (t : Registry α) (name : String)
    (h : name ∉ t.map Prod.fst) : t.hasName name = false := by
  induction t with
  | nil => rfl
  | cons q s ih =>
    rw [List.map_cons, List.mem_cons, not_or] at h
    have hq : ¬ (q.1 = name) := fun he => h.1 he.symm
    simp only [Registry.hasName, if_neg hq]
    exact ih h.2

theorem removed_after_add_add {α : Type} (r : Registry α) (name : String) (f1 f2 : α)
    (hnd : (r.map Prod.fst).Nodup) :
    ((((r.add_flow name f1).add_flow name f2).remove_flow name).2).hasName name = false := by
  induction r with
  | nil => simp [Registry.add_flow, Registry.remove_flow, Registry.hasName]
  | cons p t ih =>
    rw [List.map_cons, List.nodup_cons] at hnd
    by_cases hp : p.1 = name
    · simp only [Registry.add_flow, if_pos hp, if_pos rfl, Registry.remove_flow]
      exact hasName_false_of_not_mem t name (by rw [← hp]; exact hnd.1)
    · simp only [Registry.add_flow, if_neg hp, Registry.remove_flow]
      simp only [Registry.hasName, if_neg hp]
      exact ih hnd.2

theorem remove_absent {α : Type} (r : Registry α) (name : String)
    (h : r.hasName name = false) : r.remove_flow name = (Option.none, r) := by
  induction r with
  | nil => rfl
  | cons p t ih =>
    by_cases hp : p.1 = name
    · rw [Registry.hasName] at h
      rw [if_pos hp] at h
      exact Bool.noConfusion h
    · rw [Registry.hasName, if_neg hp] at h
      simp only [Registry.remove_flow, if_neg hp]
      rw [ih h]

/-- C7: on a registry with unique names, adding under the same name twice
keeps the later flow — `remove` then returns it and deletes the entry —
and removing an unregistered name yields `None` without fault, leaving the
registry unchanged. -/
theorem claim_C7 {α : Type} (r : Registry α) (name : String) (f1 f2 : α)
    (hnd : (r.map Prod.fst).Nodup) :
    (((r.add_flow name f1).add_flow name f2).remove_flow name).1 = some f2
    ∧ (((r.add_flow name f1).add_flow name f2).remove_flow name).2.hasName name = false
    ∧ (∀ m, r.hasName m = false → r.remove_flow m = (Option.none, r)) :=
  ⟨remove_add_add r name f1 f2,
   removed_after_add_add r name f1 f2 hnd,
   fun m hm => remove_absent r m hm⟩

/-- C7 witness: from the empty registry, `add("x", 1)` then `add("x", 2)`
makes `remove("x")` return `2` and leave no `"x"` entry, and removing the
unknown name `"missing"` returns `None` with the registry unchanged. -/
theorem claim_C7_witness :
    (Registry.remove_flow
        (Registry.add_flow (Registry.add_flow ([] : Registry Nat) "x" 1) "x" 2) "x").1
      = some 2
    ∧ (Registry.remove_flow
        (Registry.add_flow (Registry.add_flow ([] : Registry Nat) "x" 1) "x" 2)
          "x").2.hasName "x" = false
    ∧ Registry.remove_flow ([] : Registry Nat) "missing"
        = (Option.none, ([] : Registry Nat)) := by
  have h := claim_C7 ([] : Registry Nat) "x" 1 2 (by simp)
  exact ⟨h.1, h.2.1, h.2.2 "missing" rfl⟩
